import Mathlib

/-!
Shallow embedding of the time-integration controller of MicroHH
(`src/timeloop.cxx`): the `Timeloop` class state, its step/save/query
operations, and the Runge-Kutta substep kernels, together with proofs of
the behavioural properties claimed for them.

Machine integers (`unsigned long`, `int`) are modelled as `ℕ`; the
floating-point members `time` and `dt` are modelled as `ℚ` (the claims
under scrutiny concern exact arithmetic identities, and every operation
involved is a ratio of integers); field arrays are modelled as total
maps `ℕ → ℚ` indexed by the linearised `ijk` index used in the source.
-/

namespace MicroHH

/-- The checkpoint record written by `Timeloop::save`: `itime`, `idt`,
`iteration`, in this order, as fixed-width integers. -/
structure TimeRecord where
  itime : ℕ
  idt : ℕ
  iteration : ℕ
deriving DecidableEq, Repr

/-- The mutable state of the `Timeloop` class (the members that the
modelled operations read or write). `ifactor` is the fixed constant
`1e9` set in the constructor and is kept as a global definition. -/
structure State where
  time : ℚ
  dt : ℚ
  itime : ℕ
  idt : ℕ
  idtlim : ℕ
  idtmax : ℕ
  iendtime : ℕ
  istarttime : ℕ
  isavetime : ℕ
  iiotimeprec : ℕ
  iotime : ℕ
  iteration : ℕ
  substep : ℕ
  rkorder : ℕ
  adaptivestep : Bool
  loop : Bool
deriving DecidableEq, Repr

/-- `ifactor = 1e9`, the fixed-point scale between seconds and ticks. -/
def ifactor : ℚ := 1000000000

/-- The grid index ranges and strides read by the RK kernels
(`jj = icells`, `kk = ijcells` in the source). -/
structure Grid where
  istart : ℕ
  iend : ℕ
  jstart : ℕ
  jend : ℕ
  kstart : ℕ
  kend : ℕ
  icells : ℕ
  ijcells : ℕ
deriving DecidableEq, Repr

namespace Timeloop

/-- `Timeloop::in_substep`: true when `substep > 0`. -/
def in_substep (s : State) : Bool :=
  if 0 < s.substep then true else false

/-- `Timeloop::is_finished`: returns the negation of the `loop` flag. -/
def is_finished (s : State) : Bool :=
  !s.loop

/-- `Timeloop::step_time`: advances `time`, `itime`, `iotime`,
`iteration` unless mid-substep, clearing `loop` once `itime` reaches
`iendtime`. -/
def step_time (s : State) : State :=
  if in_substep s then s
  else
    let itime' := s.itime + s.idt
    { s with
      time := s.time + s.dt
      itime := itime'
      iotime := itime' / s.iiotimeprec
      iteration := s.iteration + 1
      loop := if s.iendtime ≤ itime' then false else s.loop }

/-- `Timeloop::do_save`: takes the result of
`master->at_wall_clock_limit()` as the argument `wcl`; returns the save
decision and the updated state (the wall-clock branch clears `loop`). -/
def do_save (s : State) (wcl : Bool) : Bool × State :=
  if s.itime % s.iiotimeprec = 0 ∧ in_substep s = false ∧ wcl = true then
    (true, { s with loop := false })
  else if s.itime % s.isavetime = 0 ∧ s.iteration ≠ 0 ∧ in_substep s = false then
    (true, s)
  else
    (false, s)

/-- `Timeloop::set_time_step`: in adaptive mode (and not mid-substep)
commits `idtlim` as `idt` and recomputes `dt`; throws (modelled as
`Except.error`) when the current `idt` is zero, before committing. -/
def set_time_step (s : State) : Except Unit State :=
  if in_substep s then Except.ok s
  else if s.adaptivestep then
    if s.idt = 0 then Except.error ()
    else Except.ok { s with idt := s.idtlim, dt := (s.idtlim : ℚ) / ifactor }
  else Except.ok s

/-- `Timeloop::is_stats_step`: true when not mid-substep and not at the
first iteration after a restart (`iteration > 0` with
`itime == istarttime`). -/
def is_stats_step (s : State) : Bool :=
  if in_substep s = false ∧ ¬(s.iteration > 0 ∧ s.itime = s.istarttime) then true
  else false

/-- `Timeloop::save`: with the target file's current content as input
(`none` when absent), returns the throw/no-throw outcome and the file
content afterwards. `fopen(..., "wbx")` fails when the file exists, in
which case nothing is written and the routine throws. -/
def save (s : State) (file : Option TimeRecord) : Except Unit Unit × Option TimeRecord :=
  match file with
  | some r => (Except.error (), some r)
  | none => (Except.ok (), some ⟨s.itime, s.idt, s.iteration⟩)

/-- `Timeloop::load`: with the file's content as input (`none` when
absent), returns the throw/no-throw outcome and the state afterwards; a
missing file throws and leaves the state unchanged, otherwise `itime`,
`idt`, `iteration` are read back and `time`, `dt` recomputed from them. -/
def load (s : State) (file : Option TimeRecord) : Except Unit Unit × State :=
  match file with
  | none => (Except.error (), s)
  | some r =>
    (Except.ok (),
      { s with
        itime := r.itime
        idt := r.idt
        iteration := r.iteration
        time := (r.itime : ℚ) / ifactor
        dt := (r.idt : ℚ) / ifactor })

/-- The loop in `Timeloop::get_interpolation_factors` computing
`index1`: the length of the longest leading block of `timevec` whose
entries do not exceed `time`. -/
def index1_count (time : ℚ) : List ℚ → ℕ
  | [] => 0
  | t :: ts => if time < t then 0 else index1_count time ts + 1

/-- `Timeloop::get_interpolation_factors`: returns
`(index0, index1, fac0, fac1)` for linear interpolation of `timevec` at
the given simulation time, clamped at both ends. -/
def get_interpolation_factors (time : ℚ) (timevec : List ℚ) : ℕ × ℕ × ℚ × ℚ :=
  let index1 := index1_count time timevec
  if index1 = 0 then
    (0, 0, 0, 1)
  else if index1 = timevec.length then
    (index1 - 1, index1 - 1, 1, 0)
  else
    let t0 := timevec.getD (index1 - 1) 0
    let t1 := timevec.getD index1 0
    (index1 - 1, index1, (t1 - time) / (t1 - t0), (time - t0) / (t1 - t0))

/-- The `cA` coefficient table of `Timeloop::rk3`. -/
def cA3 : List ℚ := [0, -5/9, -153/128]

/-- The `cB` coefficient table of `Timeloop::rk3` (also used by
`Timeloop::rk3subdt`). -/
def cB3 : List ℚ := [1/3, 15/16, 8/15]

/-- The `cA` coefficient table of `Timeloop::rk4`. -/
def cA4 : List ℚ :=
  [0,
   -567301805773/1357537059087,
   -2404267990393/2016746695238,
   -3550918686646/2091501179385,
   -1275806237668/842570457699]

/-- The `cB` coefficient table of `Timeloop::rk4` (also used by
`Timeloop::rk4subdt`). -/
def cB4 : List ℚ :=
  [1432997174477/9575080441755,
   5161836677717/13612068292357,
   1720146321549/2090206949498,
   3134564353537/4481467310338,
   2277821191437/14882151754819]

/-- The linearised indices `ijk = i + j*jj + k*kk` visited by the
triple loop of the RK kernels, in loop order (`k` outermost, `i`
innermost), with `jj = icells` and `kk = ijcells`. -/
def gridIndices (g : Grid) : List ℕ :=
  ((List.range' g.kstart (g.kend - g.kstart)) ×ˢ
    ((List.range' g.jstart (g.jend - g.jstart)) ×ˢ
      (List.range' g.istart (g.iend - g.istart)))).map
    (fun t => t.2.2 + t.2.1 * g.icells + t.1 * g.ijcells)

/-- `Timeloop::rk3`: the first loop does `a[ijk] += cB[substep]*dt*at[ijk]`
over the grid, the second rescales `at[ijk] *= cA[(substep+1)%3]`. -/
def rk3 (g : Grid) (substep : ℕ) (a tnd : ℕ → ℚ) (dt : ℚ) : (ℕ → ℚ) × (ℕ → ℚ) :=
  let a' := (gridIndices g).foldl
    (fun acc ijk => Function.update acc ijk (acc ijk + cB3.getD substep 0 * dt * tnd ijk)) a
  let tnd' := (gridIndices g).foldl
    (fun acc ijk => Function.update acc ijk (cA3.getD ((substep + 1) % 3) 0 * acc ijk)) tnd
  (a', tnd')

/-- `Timeloop::rk4`: the first loop does `a[ijk] = a[ijk] + cB[substep]*dt*at[ijk]`
over the grid, the second rescales `at[ijk] = cA[(substep+1)%5]*at[ijk]`. -/
def rk4 (g : Grid) (substep : ℕ) (a tnd : ℕ → ℚ) (dt : ℚ) : (ℕ → ℚ) × (ℕ → ℚ) :=
  let a' := (gridIndices g).foldl
    (fun acc ijk => Function.update acc ijk (acc ijk + cB4.getD substep 0 * dt * tnd ijk)) a
  let tnd' := (gridIndices g).foldl
    (fun acc ijk => Function.update acc ijk (cA4.getD ((substep + 1) % 5) 0 * acc ijk)) tnd
  (a', tnd')

/-- A prognostic field: its value array and its tendency array
(`fields->ap[...]->data` and `fields->at[...]->data`). -/
def FieldPair : Type := (ℕ → ℚ) × (ℕ → ℚ)

/-- `Timeloop::exec`: applies the configured RK kernel at the current
substep to every prognostic field, then cycles the substep counter
(mod 3 for `rkorder == 3`, mod 5 for `rkorder == 4`). -/
def exec (g : Grid) (s : State) (flds : List FieldPair) : State × List FieldPair :=
  if s.rkorder = 3 then
    ({ s with substep := (s.substep + 1) % 3 },
     flds.map (fun p => rk3 g s.substep p.1 p.2 s.dt))
  else if s.rkorder = 4 then
    ({ s with substep := (s.substep + 1) % 5 },
     flds.map (fun p => rk4 g s.substep p.1 p.2 s.dt))
  else (s, flds)

/-- `n` successive calls to `Timeloop::exec`. -/
def execN (g : Grid) : ℕ → State × List FieldPair → State × List FieldPair
  | 0, p => p
  | n + 1, p => execN g n (exec g p.1 p.2)

end Timeloop

/-- A generic concrete controller state used to instantiate theorems. -/
def s0 : State :=
  { time := 0, dt := 1/2, itime := 100, idt := 5, idtlim := 7, idtmax := 9,
    iendtime := 1000, istarttime := 0, isavetime := 10, iiotimeprec := 10,
    iotime := 10, iteration := 3, substep := 0, rkorder := 3,
    adaptivestep := true, loop := true }

section Lemmas

open Timeloop

/-- Not being mid-substep is the same as `substep = 0`. -/
theorem in_substep_eq_false_iff (s : State) : in_substep s = false ↔ s.substep = 0 := by
  simp [in_substep]

end Lemmas

/-- C7: for every controller state with `substep > 0`, a call to
`step_time()` changes nothing: the state (in particular `time`, `itime`,
`iteration` and the loop flag) is returned unchanged. -/
theorem step_time_in_substep_noop (s : State) (h : 0 < s.substep) :
    Timeloop.step_time s = s := by
  have : Timeloop.in_substep s = true := by
    simp [Timeloop.in_substep, h]
  simp [Timeloop.step_time, this]

/-- Witness for C7 at a concrete mid-substep state. -/
theorem step_time_in_substep_noop_witness :
    0 < ({ s0 with substep := 2 } : State).substep ∧
      Timeloop.step_time { s0 with substep := 2 } = { s0 with substep := 2 } :=
  ⟨by decide, step_time_in_substep_noop { s0 with substep := 2 } (by decide)⟩

/-- C10: `is_stats_step()` returns true exactly when the controller is
not mid-substep (`substep = 0`) and it is not the case that both
`iteration > 0` and `itime = istarttime` (the first full step after a
restart is suppressed). -/
theorem is_stats_step_iff (s : State) :
    Timeloop.is_stats_step s = true ↔
      (s.substep = 0 ∧ ¬(s.iteration > 0 ∧ s.itime = s.istarttime)) := by
  rw [Timeloop.is_stats_step]
  by_cases hp : Timeloop.in_substep s = false ∧ ¬(s.iteration > 0 ∧ s.itime = s.istarttime)
  · rw [if_pos hp]
    exact ⟨fun _ => ⟨(in_substep_eq_false_iff s).mp hp.1, hp.2⟩, fun _ => rfl⟩
  · rw [if_neg hp]
    constructor
    · intro h
      exact absurd h (by simp)
    · intro hq
      exact absurd ⟨(in_substep_eq_false_iff s).mpr hq.1, hq.2⟩ hp

/-- C8: saving to a fresh file and loading the resulting record into any
state reproduces `itime`, `idt`, `iteration` exactly, and afterwards
`time = itime / ifactor` and `dt = idt / ifactor` hold exactly. -/
theorem save_load_roundtrip (s s' : State) :
    (Timeloop.save s none).1 = Except.ok () ∧
    (Timeloop.load s' (Timeloop.save s none).2).1 = Except.ok () ∧
    (Timeloop.load s' (Timeloop.save s none).2).2.itime = s.itime ∧
    (Timeloop.load s' (Timeloop.save s none).2).2.idt = s.idt ∧
    (Timeloop.load s' (Timeloop.save s none).2).2.iteration = s.iteration ∧
    (Timeloop.load s' (Timeloop.save s none).2).2.time
      = ((Timeloop.load s' (Timeloop.save s none).2).2.itime : ℚ) / ifactor ∧
    (Timeloop.load s' (Timeloop.save s none).2).2.dt
      = ((Timeloop.load s' (Timeloop.save s none).2).2.idt : ℚ) / ifactor := by
  refine ⟨rfl, rfl, rfl, rfl, rfl, rfl, rfl⟩

/-- C9: `save()` onto an existing checkpoint file throws and leaves the
file content untouched; `load()` from an absent file throws and leaves
the whole time state unchanged. -/
theorem save_exists_load_absent_fail (s : State) (r : TimeRecord) :
    Timeloop.save s (some r) = (Except.error (), some r) ∧
    Timeloop.load s none = (Except.error (), s) :=
  ⟨rfl, rfl⟩

/-- C6: `get_interpolation_factors` over reference times `[10, 20, 30]`
clamps at both ends: query 5 gives indices `(0,0)` with weights `(0,1)`;
query 25 gives indices `(1,2)` with weights `(1/2, 1/2)` (summing to 1,
linear in proximity); query 35 gives indices `(2,2)` with weights
`(1,0)`. -/
theorem get_interpolation_factors_clamped :
    Timeloop.get_interpolation_factors 5 [10, 20, 30] = (0, 0, 0, 1) ∧
    Timeloop.get_interpolation_factors 25 [10, 20, 30] = (1, 2, 1/2, 1/2) ∧
    (Timeloop.get_interpolation_factors 25 [10, 20, 30]).2.2.1
      + (Timeloop.get_interpolation_factors 25 [10, 20, 30]).2.2.2 = 1 ∧
    Timeloop.get_interpolation_factors 35 [10, 20, 30] = (2, 2, 1, 0) := by
  have h5 : Timeloop.index1_count 5 [10, 20, 30] = 0 := by
    norm_num [Timeloop.index1_count]
  have h25 : Timeloop.index1_count 25 [10, 20, 30] = 2 := by
    norm_num [Timeloop.index1_count]
  have h35 : Timeloop.index1_count 35 [10, 20, 30] = 3 := by
    norm_num [Timeloop.index1_count]
  refine ⟨?_, ?_, ?_, ?_⟩ <;>
    simp [Timeloop.get_interpolation_factors, h5, h25, h35, List.getD] <;>
    norm_num

/-- A state at the wall-clock limit whose `itime` is neither aligned to
`iiotimeprec` nor a multiple of `isavetime`. -/
def sA : State := { s0 with itime := 5, iiotimeprec := 10, isavetime := 7 }

/-- A state whose `itime` is a nonzero multiple of `isavetime` but whose
`iteration` counter is zero. -/
def sB : State := { s0 with itime := 14, iiotimeprec := 7, isavetime := 7, iteration := 0 }

/-- C1 counterexample: (a) at state `sA` the wall-clock limit fires, yet
`do_save()` returns false and leaves the loop flag set (no save, no
stop), because `itime` is not aligned to `iiotimeprec`; (b) at state
`sB`, `itime` is a nonzero integer multiple of `isavetime` and the
controller is not mid-substep, yet `do_save()` returns false, because
`iteration = 0`. -/
theorem do_save_cex :
    ((Timeloop.do_save sA true).1 = false ∧ (Timeloop.do_save sA true).2.loop = true ∧
      Timeloop.is_finished (Timeloop.do_save sA true).2 = false) ∧
    (sB.itime % sB.isavetime = 0 ∧ sB.itime ≠ 0 ∧ sB.substep = 0 ∧
      (Timeloop.do_save sB false).1 = false) := by
  refine ⟨⟨?_, ?_, ?_⟩, ?_, ?_, ?_, ?_⟩ <;> decide

/-- C1 (amended): `do_save()` returns true exactly when either (a)
`itime` is a multiple of `iiotimeprec`, the controller is not
mid-substep, and the wall-clock limit fires — in which case, in the same
call, the loop flag is cleared so `is_finished()` returns true — or (b)
`itime` is a multiple of `isavetime`, `iteration` is nonzero, and the
controller is not mid-substep; in every other case it returns false and
leaves the loop flag unchanged. -/
theorem do_save_characterization (s : State) (wcl : Bool) :
    ((Timeloop.do_save s wcl).1 = true ↔
      ((s.itime % s.iiotimeprec = 0 ∧ s.substep = 0 ∧ wcl = true) ∨
       (s.itime % s.isavetime = 0 ∧ s.iteration ≠ 0 ∧ s.substep = 0))) ∧
    ((Timeloop.do_save s wcl).2 =
      if s.itime % s.iiotimeprec = 0 ∧ s.substep = 0 ∧ wcl = true then
        { s with loop := false }
      else s) ∧
    (Timeloop.is_finished (Timeloop.do_save s wcl).2 = true ↔
      ((s.itime % s.iiotimeprec = 0 ∧ s.substep = 0 ∧ wcl = true) ∨ s.loop = false)) := by
  rw [Timeloop.do_save]
  by_cases hA : s.itime % s.iiotimeprec = 0 ∧ Timeloop.in_substep s = false ∧ wcl = true
  · have hA' : s.itime % s.iiotimeprec = 0 ∧ s.substep = 0 ∧ wcl = true :=
      ⟨hA.1, (in_substep_eq_false_iff s).mp hA.2.1, hA.2.2⟩
    rw [if_pos hA, if_pos hA']
    refine ⟨by simp [hA'], rfl, ?_⟩
    simp [Timeloop.is_finished, hA']
  · have hA' : ¬(s.itime % s.iiotimeprec = 0 ∧ s.substep = 0 ∧ wcl = true) := by
      intro hc
      exact hA ⟨hc.1, (in_substep_eq_false_iff s).mpr hc.2.1, hc.2.2⟩
    rw [if_neg hA, if_neg hA']
    by_cases hB : s.itime % s.isavetime = 0 ∧ s.iteration ≠ 0 ∧ Timeloop.in_substep s = false
    · have hB' : s.itime % s.isavetime = 0 ∧ s.iteration ≠ 0 ∧ s.substep = 0 :=
        ⟨hB.1, hB.2.1, (in_substep_eq_false_iff s).mp hB.2.2⟩
      rw [if_pos hB]
      refine ⟨by simp [hB'], rfl, ?_⟩
      simp [Timeloop.is_finished, hA']
    · have hB' : ¬(s.itime % s.isavetime = 0 ∧ s.iteration ≠ 0 ∧ s.substep = 0) := by
        intro hc
        exact hB ⟨hc.1, hc.2.1, (in_substep_eq_false_iff s).mpr hc.2.2⟩
      rw [if_neg hB]
      refine ⟨by simp [hA', hB'], rfl, ?_⟩
      simp [Timeloop.is_finished, hA']

/-- A state in adaptive mode, not mid-substep, whose previously computed
limit `idtlim` is zero while the current `idt` is nonzero. -/
def s2 : State := { s0 with idt := 5, idtlim := 0 }

/-- C2 counterexample: at state `s2` the adaptive commit makes the
resulting integer step zero (`idtlim = 0`), yet `set_time_step()` raises
no error and commits `idt = 0`, `dt = 0`; the underflow check tests the
previous step, not the newly committed one. -/
theorem set_time_step_commits_zero_step :
    s2.adaptivestep = true ∧ s2.substep = 0 ∧ s2.idtlim = 0 ∧
    Timeloop.set_time_step s2 = Except.ok { s2 with idt := 0, dt := 0 } := by
  refine ⟨rfl, rfl, rfl, ?_⟩
  rw [Timeloop.set_time_step]
  norm_num [Timeloop.in_substep, s2, s0, ifactor]

/-- C2 (amended): in adaptive mode and not mid-substep,
`set_time_step()` raises the fatal precision error exactly when the
*currently held* integer step `idt` (the one committed by the previous
adaptive call) is zero, and in that case commits nothing; otherwise it
commits `idt := idtlim` and `dt := idtlim / ifactor`. A zero `idtlim` is
therefore committed silently and only detected on the next call. -/
theorem set_time_step_adaptive (s : State) (h0 : s.substep = 0) (ha : s.adaptivestep = true) :
    (s.idt = 0 → Timeloop.set_time_step s = Except.error ()) ∧
    (s.idt ≠ 0 →
      Timeloop.set_time_step s
        = Except.ok { s with idt := s.idtlim, dt := (s.idtlim : ℚ) / ifactor }) := by
  have hsub : Timeloop.in_substep s = false := (in_substep_eq_false_iff s).mpr h0
  constructor
  · intro hz
    simp [Timeloop.set_time_step, hsub, ha, hz]
  · intro hnz
    simp [Timeloop.set_time_step, hsub, ha, hnz]

/-- Witness for C2 (amended) at a concrete adaptive state with a
nonzero current step: the limit `idtlim = 7` is committed. -/
theorem set_time_step_adaptive_witness :
    Timeloop.set_time_step s0
      = Except.ok { s0 with idt := s0.idtlim, dt := (s0.idtlim : ℚ) / ifactor } :=
  (set_time_step_adaptive s0 (by decide) (by decide)).2 (by decide)

/-- A trivial (empty-range) grid, for statements that only concern the
substep counter. -/
def gTriv : Grid :=
  { istart := 0, iend := 0, jstart := 0, jend := 0, kstart := 0, kend := 0,
    icells := 0, ijcells := 0 }

section ExecLemmas

open Timeloop

/-- One `exec()` call leaves `rkorder` unchanged. -/
theorem exec_rkorder (g : Grid) (s : State) (f : List FieldPair) :
    (exec g s f).1.rkorder = s.rkorder := by
  rw [exec]
  by_cases h3 : s.rkorder = 3
  · rw [if_pos h3]
  · rw [if_neg h3]
    by_cases h4 : s.rkorder = 4
    · rw [if_pos h4]
    · rw [if_neg h4]

/-- One `exec()` call under `rkorder = 3` cycles the substep mod 3. -/
theorem exec_substep_rk3 (g : Grid) (s : State) (f : List FieldPair) (h : s.rkorder = 3) :
    (exec g s f).1.substep = (s.substep + 1) % 3 := by
  rw [exec, if_pos h]

/-- One `exec()` call under `rkorder = 4` cycles the substep mod 5. -/
theorem exec_substep_rk4 (g : Grid) (s : State) (f : List FieldPair) (h : s.rkorder = 4) :
    (exec g s f).1.substep = (s.substep + 1) % 5 := by
  have h3 : s.rkorder ≠ 3 := by omega
  rw [exec, if_neg h3, if_pos h]

/-- Substep evolution over `n` calls to `exec()` under `rkorder = 3`. -/
theorem execN_substep_rk3 (g : Grid) :
    ∀ (n : ℕ) (p : State × List FieldPair), p.1.rkorder = 3 → p.1.substep < 3 →
      (execN g n p).1.substep = (p.1.substep + n) % 3 := by
  intro n
  induction n with
  | zero =>
    intro p h3 hlt
    simpa [execN] using (Nat.mod_eq_of_lt hlt).symm
  | succ m ih =>
    intro p h3 hlt
    rw [execN]
    have hord : (exec g p.1 p.2).1.rkorder = 3 := by rw [exec_rkorder]; exact h3
    have hsub : (exec g p.1 p.2).1.substep = (p.1.substep + 1) % 3 :=
      exec_substep_rk3 g p.1 p.2 h3
    rw [ih (exec g p.1 p.2) hord (by rw [hsub]; exact Nat.mod_lt _ (by norm_num)), hsub,
      Nat.mod_add_mod]
    omega

/-- Substep evolution over `n` calls to `exec()` under `rkorder = 4`. -/
theorem execN_substep_rk4 (g : Grid) :
    ∀ (n : ℕ) (p : State × List FieldPair), p.1.rkorder = 4 → p.1.substep < 5 →
      (execN g n p).1.substep = (p.1.substep + n) % 5 := by
  intro n
  induction n with
  | zero =>
    intro p h4 hlt
    simpa [execN] using (Nat.mod_eq_of_lt hlt).symm
  | succ m ih =>
    intro p h4 hlt
    rw [execN]
    have hord : (exec g p.1 p.2).1.rkorder = 4 := by rw [exec_rkorder]; exact h4
    have hsub : (exec g p.1 p.2).1.substep = (p.1.substep + 1) % 5 :=
      exec_substep_rk4 g p.1 p.2 h4
    rw [ih (exec g p.1 p.2) hord (by rw [hsub]; exact Nat.mod_lt _ (by norm_num)), hsub,
      Nat.mod_add_mod]
    omega

end ExecLemmas

/-- C3 counterexample: with `rkorder = 4` and `substep = 0`, after
exactly 4 calls to `exec()` the substep counter is 4, not 0: the
4th-order scheme has five substeps, so the counter cycles mod 5. -/
theorem exec_four_calls_substep_ne_zero :
    ({ s0 with rkorder := 4 } : State).rkorder = 4 ∧
    ({ s0 with rkorder := 4 } : State).substep = 0 ∧
    (Timeloop.execN gTriv 4 ({ s0 with rkorder := 4 }, [])).1.substep = 4 ∧
    (Timeloop.execN gTriv 4 ({ s0 with rkorder := 4 }, [])).1.substep ≠ 0 := by
  refine ⟨rfl, rfl, rfl, by decide⟩

/-- C3 (amended): for any legal `rkorder` in `{3, 4}`, starting from
`substep = 0`, after `n` calls to `exec()` the substep counter equals
`n % S` with `S = 3` for `rkorder = 3` and `S = 5` for `rkorder = 4`; in
particular the counter cycles `0, 1, ..., S-1, 0` and returns to 0 after
exactly `S` calls (3 or 5, not 4). -/
theorem exec_substep_cycles (g : Grid) (flds : List Timeloop.FieldPair) (s : State) (n : ℕ)
    (h0 : s.substep = 0) (h34 : s.rkorder = 3 ∨ s.rkorder = 4) :
    (Timeloop.execN g n (s, flds)).1.substep
      = n % (if s.rkorder = 3 then 3 else 5) := by
  rcases h34 with h3 | h4
  · rw [if_pos h3, execN_substep_rk3 g n (s, flds) h3 (by simp [h0])]
    simp [h0]
  · have hne : s.rkorder ≠ 3 := by omega
    rw [if_neg hne, execN_substep_rk4 g n (s, flds) h4 (by simp [h0])]
    simp [h0]

/-- Witness for C3 (amended): a 3rd-order controller returns to
substep 0 after exactly three `exec()` calls, and a 4th-order one after
exactly five. -/
theorem exec_substep_cycles_witness :
    (Timeloop.execN gTriv 3 (s0, [])).1.substep = 3 % (if s0.rkorder = 3 then 3 else 5) ∧
    (Timeloop.execN gTriv 5 ({ s0 with rkorder := 4 }, [])).1.substep
      = 5 % (if ({ s0 with rkorder := 4 } : State).rkorder = 3 then 3 else 5) :=
  ⟨exec_substep_cycles gTriv [] s0 3 (by decide) (by decide),
   exec_substep_cycles gTriv [] { s0 with rkorder := 4 } 5 (by decide) (by decide)⟩

section RKPointwise

open Timeloop

/-- Evaluating a fold of per-index additive updates: over a duplicate-free
index list, each cell receives its increment exactly once. -/
theorem foldl_update_add (c : ℕ → ℚ) :
    ∀ (l : List ℕ) (a : ℕ → ℚ) (x : ℕ), l.Nodup →
      (l.foldl (fun acc ijk => Function.update acc ijk (acc ijk + c ijk)) a) x
        = if x ∈ l then a x + c x else a x := by
  intro l
  induction l with
  | nil =>
    intro a x _
    simp
  | cons hd tl ih =>
    intro a x hnd
    rcases List.nodup_cons.mp hnd with ⟨hhd, htl⟩
    rw [List.foldl_cons, ih _ x htl]
    by_cases hx : x = hd
    · subst hx
      simp [hhd]
    · rw [Function.update_noteq hx]
      simp [List.mem_cons, hx]

/-- Evaluating a fold of per-index rescales: over a duplicate-free index
list, each cell is rescaled exactly once. -/
theorem foldl_update_mul (q : ℚ) :
    ∀ (l : List ℕ) (a : ℕ → ℚ) (x : ℕ), l.Nodup →
      (l.foldl (fun acc ijk => Function.update acc ijk (q * acc ijk)) a) x
        = if x ∈ l then q * a x else a x := by
  intro l
  induction l with
  | nil =>
    intro a x _
    simp
  | cons hd tl ih =>
    intro a x hnd
    rcases List.nodup_cons.mp hnd with ⟨hhd, htl⟩
    rw [List.foldl_cons, ih _ x htl]
    by_cases hx : x = hd
    · subst hx
      simp [hhd]
    · rw [Function.update_noteq hx]
      simp [List.mem_cons, hx]

/-- Splitting a mixed-radix sum: if both low parts are below the stride,
equal sums force equal parts. -/
theorem encode_inj_aux (kk A B k k' : ℕ) (hA : A < kk) (hB : B < kk)
    (h : A + k * kk = B + k' * kk) : A = B ∧ k = k' := by
  have hkk : 0 < kk := lt_of_le_of_lt (Nat.zero_le A) hA
  have h1 : (A + k * kk) % kk = (B + k' * kk) % kk := by rw [h]
  rw [Nat.add_mul_mod_self_right, Nat.add_mul_mod_self_right,
    Nat.mod_eq_of_lt hA, Nat.mod_eq_of_lt hB] at h1
  refine ⟨h1, ?_⟩
  rw [h1] at h
  exact Nat.eq_of_mul_eq_mul_right hkk (Nat.add_left_cancel h)

/-- On a consistent grid (`iend ≤ icells` and `jend * icells ≤ ijcells`),
the linearised `ijk` indices visited by the RK loops are pairwise
distinct. -/
theorem gridIndices_nodup (g : Grid) (hic : g.iend ≤ g.icells)
    (hjc : g.jend * g.icells ≤ g.ijcells) : (gridIndices g).Nodup := by
  rw [gridIndices]
  apply List.Nodup.map_on
  · rintro ⟨k, j, i⟩ ht ⟨k', j', i'⟩ ht' heq
    simp only [List.mem_product, List.mem_range'_1] at ht ht'
    obtain ⟨⟨hk1, hk2⟩, ⟨hj1, hj2⟩, ⟨hi1, hi2⟩⟩ := ht
    obtain ⟨⟨hk1', hk2'⟩, ⟨hj1', hj2'⟩, ⟨hi1', hi2'⟩⟩ := ht'
    have hi : i < g.icells := by omega
    have hi' : i' < g.icells := by omega
    have hjm : j * g.icells + g.icells ≤ g.jend * g.icells := by
      have := Nat.mul_le_mul_right g.icells (show j + 1 ≤ g.jend by omega)
      rwa [Nat.add_mul, Nat.one_mul] at this
    have hjm' : j' * g.icells + g.icells ≤ g.jend * g.icells := by
      have := Nat.mul_le_mul_right g.icells (show j' + 1 ≤ g.jend by omega)
      rwa [Nat.add_mul, Nat.one_mul] at this
    have hlow : i + j * g.icells < g.ijcells := by omega
    have hlow' : i' + j' * g.icells < g.ijcells := by omega
    obtain ⟨hAB, hk⟩ := encode_inj_aux g.ijcells _ _ k k' hlow hlow' heq
    obtain ⟨hii, hj⟩ := encode_inj_aux g.icells i i' j j' hi hi' hAB
    subst hii
    subst hj
    subst hk
    rfl
  · exact (List.nodup_range' _ _).product
      ((List.nodup_range' _ _).product (List.nodup_range' _ _))

/-- Every in-range `(i, j, k)` linearises to a member of the visited
index list. -/
theorem mem_gridIndices (g : Grid) (i j k : ℕ)
    (hi1 : g.istart ≤ i) (hi2 : i < g.iend)
    (hj1 : g.jstart ≤ j) (hj2 : j < g.jend)
    (hk1 : g.kstart ≤ k) (hk2 : k < g.kend) :
    i + j * g.icells + k * g.ijcells ∈ gridIndices g := by
  rw [gridIndices]
  apply List.mem_map.mpr
  refine ⟨(k, j, i), ?_, rfl⟩
  simp only [List.mem_product, List.mem_range'_1]
  omega

end RKPointwise

/-- C5: one call to the stage kernel (`rk3` or `rk4`) updates the field
at every grid point `ijk = i + j*icells + k*ijcells` of the loop range
by `a[ijk] += cB[substep] * dt * at[ijk]`, and rescales the tendency at
every such point by `cA[(substep+1) % S]` (the coefficient taken
cyclically, `S = 3` resp. `5`); and `cA[0] = 0` in both tables, so the
rescale entering stage 0 erases the prior tendency. -/
theorem rk_stage_pointwise (g : Grid) (sub : ℕ) (a tnd : ℕ → ℚ) (dt : ℚ) (i j k : ℕ)
    (hic : g.iend ≤ g.icells) (hjc : g.jend * g.icells ≤ g.ijcells)
    (hi1 : g.istart ≤ i) (hi2 : i < g.iend)
    (hj1 : g.jstart ≤ j) (hj2 : j < g.jend)
    (hk1 : g.kstart ≤ k) (hk2 : k < g.kend) :
    (Timeloop.rk3 g sub a tnd dt).1 (i + j * g.icells + k * g.ijcells)
        = a (i + j * g.icells + k * g.ijcells)
          + Timeloop.cB3.getD sub 0 * dt * tnd (i + j * g.icells + k * g.ijcells) ∧
    (Timeloop.rk3 g sub a tnd dt).2 (i + j * g.icells + k * g.ijcells)
        = Timeloop.cA3.getD ((sub + 1) % 3) 0 * tnd (i + j * g.icells + k * g.ijcells) ∧
    (Timeloop.rk4 g sub a tnd dt).1 (i + j * g.icells + k * g.ijcells)
        = a (i + j * g.icells + k * g.ijcells)
          + Timeloop.cB4.getD sub 0 * dt * tnd (i + j * g.icells + k * g.ijcells) ∧
    (Timeloop.rk4 g sub a tnd dt).2 (i + j * g.icells + k * g.ijcells)
        = Timeloop.cA4.getD ((sub + 1) % 5) 0 * tnd (i + j * g.icells + k * g.ijcells) ∧
    Timeloop.cA3.getD 0 0 = 0 ∧ Timeloop.cA4.getD 0 0 = 0 := by
  have hnd := gridIndices_nodup g hic hjc
  have hmem := mem_gridIndices g i j k hi1 hi2 hj1 hj2 hk1 hk2
  refine ⟨?_, ?_, ?_, ?_, rfl, rfl⟩
  · show ((Timeloop.gridIndices g).foldl
      (fun acc ijk => Function.update acc ijk
        (acc ijk + Timeloop.cB3.getD sub 0 * dt * tnd ijk)) a) _ = _
    rw [foldl_update_add (fun ijk => Timeloop.cB3.getD sub 0 * dt * tnd ijk)
      (Timeloop.gridIndices g) a _ hnd, if_pos hmem]
  · show ((Timeloop.gridIndices g).foldl
      (fun acc ijk => Function.update acc ijk
        (Timeloop.cA3.getD ((sub + 1) % 3) 0 * acc ijk)) tnd) _ = _
    rw [foldl_update_mul (Timeloop.cA3.getD ((sub + 1) % 3) 0)
      (Timeloop.gridIndices g) tnd _ hnd, if_pos hmem]
  · show ((Timeloop.gridIndices g).foldl
      (fun acc ijk => Function.update acc ijk
        (acc ijk + Timeloop.cB4.getD sub 0 * dt * tnd ijk)) a) _ = _
    rw [foldl_update_add (fun ijk => Timeloop.cB4.getD sub 0 * dt * tnd ijk)
      (Timeloop.gridIndices g) a _ hnd, if_pos hmem]
  · show ((Timeloop.gridIndices g).foldl
      (fun acc ijk => Function.update acc ijk
        (Timeloop.cA4.getD ((sub + 1) % 5) 0 * acc ijk)) tnd) _ = _
    rw [foldl_update_mul (Timeloop.cA4.getD ((sub + 1) % 5) 0)
      (Timeloop.gridIndices g) tnd _ hnd, if_pos hmem]

/-- A one-cell grid (`1 × 1 × 1` interior, unit strides). -/
def g1 : Grid :=
  { istart := 0, iend := 1, jstart := 0, jend := 1, kstart := 0, kend := 1,
    icells := 1, ijcells := 1 }

/-- Witness for C5 on the one-cell grid at substep 0 with `a = 2`,
`at = 3`, `dt = 1`. -/
theorem rk_stage_pointwise_witness :
    (Timeloop.rk3 g1 0 (fun _ => 2) (fun _ => 3) 1).1 (0 + 0 * g1.icells + 0 * g1.ijcells)
        = (fun _ => (2 : ℚ)) (0 + 0 * g1.icells + 0 * g1.ijcells)
          + Timeloop.cB3.getD 0 0 * 1
            * (fun _ => (3 : ℚ)) (0 + 0 * g1.icells + 0 * g1.ijcells) ∧
    (Timeloop.rk3 g1 0 (fun _ => 2) (fun _ => 3) 1).2 (0 + 0 * g1.icells + 0 * g1.ijcells)
        = Timeloop.cA3.getD ((0 + 1) % 3) 0
            * (fun _ => (3 : ℚ)) (0 + 0 * g1.icells + 0 * g1.ijcells) ∧
    (Timeloop.rk4 g1 0 (fun _ => 2) (fun _ => 3) 1).1 (0 + 0 * g1.icells + 0 * g1.ijcells)
        = (fun _ => (2 : ℚ)) (0 + 0 * g1.icells + 0 * g1.ijcells)
          + Timeloop.cB4.getD 0 0 * 1
            * (fun _ => (3 : ℚ)) (0 + 0 * g1.icells + 0 * g1.ijcells) ∧
    (Timeloop.rk4 g1 0 (fun _ => 2) (fun _ => 3) 1).2 (0 + 0 * g1.icells + 0 * g1.ijcells)
        = Timeloop.cA4.getD ((0 + 1) % 5) 0
            * (fun _ => (3 : ℚ)) (0 + 0 * g1.icells + 0 * g1.ijcells) ∧
    Timeloop.cA3.getD 0 0 = 0 ∧ Timeloop.cA4.getD 0 0 = 0 :=
  rk_stage_pointwise g1 0 (fun _ => 2) (fun _ => 3) 1 0 0 0
    (by decide) (by decide) (by decide) (by decide) (by decide) (by decide)
    (by decide) (by decide)

/-- C4 counterexample: the raw `cB` tables of both compiled-in schemes
do not sum to 1 in exact rational arithmetic: the 3rd-order table sums
to `433/240` and the 4th-order table also differs from 1. -/
theorem cB_sum_ne_one :
    Timeloop.cB3.sum = 433/240 ∧ Timeloop.cB3.sum ≠ 1 ∧ Timeloop.cB4.sum ≠ 1 := by
  refine ⟨?_, ?_, ?_⟩ <;> norm_num [Timeloop.cB3, Timeloop.cB4]

/-- One full 3-stage cycle of the `rk3` kernel on the one-cell grid,
started from zero field and zero tendency, with a unit tendency
contribution injected before each stage (modelling a constant
right-hand side of 1): the low-storage update/rescale machine applied
to the ODE `da/dt = 1`. -/
def unitCycle3 (dt : ℚ) : Timeloop.FieldPair :=
  let p0 : Timeloop.FieldPair := (fun _ => 0, fun _ => 0)
  let p1 := Timeloop.rk3 g1 0 p0.1 (fun n => p0.2 n + 1) dt
  let p2 := Timeloop.rk3 g1 1 p1.1 (fun n => p1.2 n + 1) dt
  Timeloop.rk3 g1 2 p2.1 (fun n => p2.2 n + 1) dt

/-- One full 5-stage cycle of the `rk4` kernel on the one-cell grid with
a unit tendency contribution injected before each stage. -/
def unitCycle4 (dt : ℚ) : Timeloop.FieldPair :=
  let p0 : Timeloop.FieldPair := (fun _ => 0, fun _ => 0)
  let p1 := Timeloop.rk4 g1 0 p0.1 (fun n => p0.2 n + 1) dt
  let p2 := Timeloop.rk4 g1 1 p1.1 (fun n => p1.2 n + 1) dt
  let p3 := Timeloop.rk4 g1 2 p2.1 (fun n => p2.2 n + 1) dt
  let p4 := Timeloop.rk4 g1 3 p3.1 (fun n => p3.2 n + 1) dt
  Timeloop.rk4 g1 4 p4.1 (fun n => p4.2 n + 1) dt

/-- C4 (amended): the normalization the schemes actually satisfy is
over *effective* stage weights, not raw `cB` entries: integrating a
constant unit tendency through one full cycle advances the field by
exactly `1 * dt` for the 3rd-order scheme (its effective weights sum to
exactly 1, and the final rescale by `cA[0] = 0` returns the tendency to
0); for the 4th-order scheme the compiled-in rational coefficients are
approximations of the exact scheme, and the effective weights sum to a
value strictly between `1` and `1 + 10⁻²⁵` — not exactly 1. -/
theorem rk_effective_weights (dt : ℚ) :
    (unitCycle3 dt).1 0 = dt ∧
    (unitCycle3 dt).2 0 = 0 ∧
    1 < (unitCycle4 1).1 0 ∧
    (unitCycle4 1).1 0 < 1 + 1/10^25 ∧
    (unitCycle4 1).1 0 ≠ 1 ∧
    (unitCycle4 1).2 0 = 0 := by
  have hg : Timeloop.gridIndices g1 = [0] := rfl
  refine ⟨?_, ?_, ?_, ?_, ?_, ?_⟩ <;>
    simp only [unitCycle3, unitCycle4, Timeloop.rk3, Timeloop.rk4, hg,
      List.foldl_cons, List.foldl_nil, Function.update_same,
      Timeloop.cA3, Timeloop.cA4, Timeloop.cB3, Timeloop.cB4,
      List.getD_cons_zero, List.getD_cons_succ] <;>
    norm_num <;> ring_nf

end MicroHH
